import Mathlib

set_option maxRecDepth 100000

/-!
Verification of the s3_memoize library (src/s3_memoize/s3_memoize.py):
a memoizing decorator backed by an S3 bucket, with FIFO/LRU eviction and
optional time-based expiration.

The embedding follows the source file:
  * `make_key` embeds `_make_key` (functools-style key derivation),
  * `md5hex` embeds the `hashlib.md5(...).hexdigest()` digest used at
    s3_memoize.py:108,
  * `S3Dict` operations embed the methods of `_S3Dict`,
  * `wrapper` embeds the closure built by `_s3_cache_wrapper`,
  * `s3_cache` embeds the validation/dispatch of `_s3_cache`.

Remote S3 state is modelled as an explicit bucket value threaded through
every operation; network availability is an explicit boolean oracle and
the wall clock an explicit `now : Nat` parameter.  Python exceptions are
modelled with `Except`; operations whose side effects survive an
exception return the updated bucket alongside the `Except` result.
-/

/-! ## MD5 (embedding of `hashlib.md5(...).hexdigest()`)

Machine words are `Nat` reduced mod 2^32.  The tables and round
structure are those of RFC 1321. -/

def mask32 (x : Nat) : Nat := x % 4294967296

def not32 (x : Nat) : Nat := Nat.xor (mask32 x) 4294967295

def rotl32 (x n : Nat) : Nat :=
  mask32 ((mask32 x <<< n) ||| (mask32 x >>> (32 - n)))

/-- Per-round left-rotation amounts. -/
def md5Shift : List Nat :=
  [7, 12, 17, 22, 7, 12, 17, 22, 7, 12, 17, 22, 7, 12, 17, 22,
   5, 9, 14, 20, 5, 9, 14, 20, 5, 9, 14, 20, 5, 9, 14, 20,
   4, 11, 16, 23, 4, 11, 16, 23, 4, 11, 16, 23, 4, 11, 16, 23,
   6, 10, 15, 21, 6, 10, 15, 21, 6, 10, 15, 21, 6, 10, 15, 21]

/-- Round constants: floor(2^32 * |sin(i+1)|). -/
def md5Sine : List Nat :=
  [3614090360, 3905402710, 606105819, 3250441966,
   4118548399, 1200080426, 2821735955, 4249261313,
   1770035416, 2336552879, 4294925233, 2304563134,
   1804603682, 4254626195, 2792965006, 1236535329,
   4129170786, 3225465664, 643717713, 3921069994,
   3593408605, 38016083, 3634488961, 3889429448,
   568446438, 3275163606, 4107603335, 1163531501,
   2850285829, 4243563512, 1735328473, 2368359562,
   4294588738, 2272392833, 1839030562, 4259657740,
   2763975236, 1272893353, 4139469664, 3200236656,
   681279174, 3936430074, 3572445317, 76029189,
   3654602809, 3873151461, 530742520, 3299628645,
   4096336452, 1126891415, 2878612391, 4237533241,
   1700485571, 2399980690, 4293915773, 2240044497,
   1873313359, 4264355552, 2734768916, 1309151649,
   4149444226, 3174756917, 718787259, 3951481745]

/-- The nonlinear mixing function of round `i` applied to `(b, c, d)`. -/
def md5Mix (i b c d : Nat) : Nat :=
  if i < 16 then (b &&& c) ||| (not32 b &&& d)
  else if i < 32 then (d &&& b) ||| (not32 d &&& c)
  else if i < 48 then Nat.xor (Nat.xor b c) d
  else Nat.xor c (b ||| not32 d)

/-- Message-word index used by round `i`. -/
def md5Idx (i : Nat) : Nat :=
  if i < 16 then i
  else if i < 32 then (5 * i + 1) % 16
  else if i < 48 then (3 * i + 5) % 16
  else (7 * i) % 16

/-- One MD5 round: state is `(a, b, c, d)`, `m` are the 16 block words. -/
def md5Round (m : List Nat) (st : Nat × Nat × Nat × Nat) (i : Nat) :
    Nat × Nat × Nat × Nat :=
  let a := st.1
  let b := st.2.1
  let c := st.2.2.1
  let d := st.2.2.2
  let f := mask32 (md5Mix i b c d + a + md5Sine.getD i 0 + m.getD (md5Idx i) 0)
  (d, mask32 (b + rotl32 f (md5Shift.getD i 0)), b, c)

/-- Process one 64-byte block (given as 16 little-endian words). -/
def md5Block (st : Nat × Nat × Nat × Nat) (m : List Nat) :
    Nat × Nat × Nat × Nat :=
  let r := (List.range 64).foldl (md5Round m) st
  (mask32 (st.1 + r.1), mask32 (st.2.1 + r.2.1),
   mask32 (st.2.2.1 + r.2.2.1), mask32 (st.2.2.2 + r.2.2.2))

/-- Split a byte list into 16-word (64-byte) little-endian blocks. -/
def md5Words (bytes : List Nat) : List Nat :=
  match bytes with
  | b0 :: b1 :: b2 :: b3 :: rest =>
      (b0 + 256 * b1 + 65536 * b2 + 16777216 * b3) :: md5Words rest
  | _ => []

/-- Split into 64-byte blocks; the fuel argument (any bound on the number
of blocks, here the byte count) keeps the recursion structural. -/
def md5ChunksAux : Nat → List Nat → List (List Nat)
  | 0, _ => []
  | fuel + 1, bytes =>
      if bytes.length < 64 then []
      else md5Words (bytes.take 64) :: md5ChunksAux fuel (bytes.drop 64)

def md5Chunks (bytes : List Nat) : List (List Nat) :=
  md5ChunksAux bytes.length bytes

/-- MD5 padding: append 0x80, zero-fill to 56 mod 64, then the 64-bit
little-endian bit length. -/
def md5Pad (msg : List Nat) : List Nat :=
  let len := msg.length
  let zeros := (119 - len % 64) % 64
  let bitLen := 8 * len
  msg ++ [128] ++ List.replicate zeros 0 ++
    (List.range 8).map (fun i => (bitLen >>> (8 * i)) % 256)

def hexDigit (n : Nat) : Char :=
  if n < 10 then Char.ofNat (48 + n) else Char.ofNat (87 + n)

/-- One 32-bit word as 8 lowercase hex characters, little-endian bytes. -/
def wordHex (w : Nat) : List Char :=
  (List.range 4).flatMap fun i =>
    let b := (w >>> (8 * i)) % 256
    [hexDigit (b / 16), hexDigit (b % 16)]

/-- MD5 digest of a byte string, as the lowercase hex string returned by
`hexdigest()`. -/
def md5hexBytes (msg : List Nat) : String :=
  let st := (md5Chunks (md5Pad msg)).foldl md5Block
    (1732584193, 4023233417, 2562383102, 271733878)
  String.mk (wordHex st.1 ++ wordHex st.2.1 ++ wordHex st.2.2.1 ++
    wordHex st.2.2.2)

/-- UTF-8 encoding of one code point (embedding of `str.encode()`). -/
def utf8Char (c : Char) : List Nat :=
  let n := c.toNat
  if n < 128 then [n]
  else if n < 2048 then [192 + n / 64, 128 + n % 64]
  else if n < 65536 then
    [224 + n / 4096, 128 + (n / 64) % 64, 128 + n % 64]
  else
    [240 + n / 262144, 128 + (n / 4096) % 64, 128 + (n / 64) % 64,
     128 + n % 64]

def utf8Bytes (s : String) : List Nat := s.data.flatMap utf8Char

/-- `md5(s.encode()).hexdigest()` from s3_memoize.py:108. -/
def md5hex (s : String) : String := md5hexBytes (utf8Bytes s)

/-! ## Python argument values and key derivation (`_make_key`, lines 54-70)

Arguments reach the cache key only through `str()` / `repr()` and
`type()`, so a float is carried as its Python `repr` text (e.g. "1.0");
its numeric semantics never enter the key derivation. -/

inductive PyVal where
  | int (n : Int)
  | float (rep : String)
  | str (s : String)
deriving DecidableEq, Repr

inductive PyType where
  | int
  | float
  | str
deriving DecidableEq, Repr

def pytype : PyVal → PyType
  | .int _ => .int
  | .float _ => .float
  | .str _ => .str

/-- `fasttypes = {int, str}` (line 56). -/
def fasttypes : List PyType := [.int, .str]

/-- An element of the composite key tuple: an argument value (or the
keyword sentinel, or a keyword name as a string) or, under `typed`, a
runtime type. -/
inductive KeyElem where
  | val (v : PyVal)
  | ty (t : PyType)
deriving DecidableEq, Repr

/-- The value `_make_key` returns: the bare argument on the fast path,
otherwise the `_HashedSeq` of the composite tuple (a list, for `str()`
purposes). -/
inductive MakeKeyResult where
  | bare (v : PyVal)
  | seq (l : List KeyElem)
deriving DecidableEq, Repr

/-- `_make_key(args, kwds, typed, kwd_mark)` (lines 54-70).  `kwds` is
the keyword dictionary as its insertion-ordered (name, value) items;
`key += item` concatenates the name and the value onto the tuple. -/
def make_key (args : List PyVal) (kwds : List (String × PyVal))
    (typed : Bool) (kwd_mark : PyVal) : MakeKeyResult :=
  let key : List KeyElem :=
    (args.map .val) ++
      (if kwds.isEmpty then []
       else .val kwd_mark ::
         kwds.flatMap (fun item => [.val (.str item.1), .val item.2]))
  if typed then
    .seq (key ++ args.map (fun v => .ty (pytype v)) ++
      (if kwds.isEmpty then []
       else kwds.map (fun item => .ty (pytype item.2))))
  else
    match key with
    | [.val v] => if pytype v ∈ fasttypes then .bare v else .seq key
    | _ => .seq key

/-! ## `str()` of the key (line 108: `str(k)`)

A `_HashedSeq` is a `list` subclass, so `str` of it is the list display:
elements rendered with `repr`.  The embedding of `repr` for strings
quotes with single quotes and no escaping, which agrees with Python on
the plain ASCII strings used here. -/

def pyReprVal : PyVal → String
  | .int n => toString n
  | .float rep => rep
  | .str s => "'" ++ s ++ "'"

def pyReprType : PyType → String
  | .int => "<class 'int'>"
  | .float => "<class 'float'>"
  | .str => "<class 'str'>"

def pyReprElem : KeyElem → String
  | .val v => pyReprVal v
  | .ty t => pyReprType t

/-- `str(k)` where `k` is the result of `_make_key`: `str` of a bare
int/str on the fast path, the list display otherwise. -/
def pystr : MakeKeyResult → String
  | .bare (.int n) => toString n
  | .bare (.float rep) => rep
  | .bare (.str s) => s
  | .seq l => "[" ++ String.intercalate ", " (l.map pyReprElem) ++ "]"

/-- Lines 107-108 of the wrapper: the storage key is the md5 hex digest
of `str(k)`, with the sentinel bound to the plain string 'kwd_mark'. -/
def cacheKey (args : List PyVal) (kwds : List (String × PyVal))
    (typed : Bool) : String :=
  md5hex (pystr (make_key args kwds typed (.str "kwd_mark")))

example : cacheKey [.int 1] [] true = "711c354b800528151a8e8e5683814a78" := by decide
example : cacheKey [.float "1.0"] [] true = "160e3d5b1e9a9f8031ce46d63cebb9d9" := by decide
example : cacheKey [.int 1] [] false = "c4ca4238a0b923820dcc509a6f75849b" := by decide
example : cacheKey [.str "1"] [] false = "c4ca4238a0b923820dcc509a6f75849b" := by decide
example : cacheKey [] [("a", .int 1)] false = "c4289f7c2ea82c11a091e869dedb06b2" := by decide
example : cacheKey [.str "kwd_mark", .str "a", .int 1] [] false = "c4289f7c2ea82c11a091e869dedb06b2" := by decide
example : cacheKey [.float "1.0"] [] false = "84b7e6bf8e3cd674011866c606a8011d" := by decide
example : cacheKey [.int 2, .int 3] [("x", .str "s")] true = "a154426409fc1560b16db796c37923e7" := by decide

/-! ## The S3 bucket model

Cached values are JSON-serializable data (`json.dumps` at line 166,
`json.loads` at line 156).  The `json` codec round-trips values in the
JSON data model, so an object body is carried as the decoded value when
it is valid JSON text and as raw text otherwise; `loads` fails exactly
on the latter.  Nested containers are elided from the value model: no
modelled operation inspects the structure of a cached value. -/

inductive Json where
  | null
  | bool (b : Bool)
  | num (n : Int)
  | str (s : String)
deriving DecidableEq, Repr

inductive S3Body where
  | json (v : Json)
  | invalid (s : String)
deriving DecidableEq, Repr

/-- `json.loads` on an object body: fails on non-JSON text. -/
def loads : S3Body → Option Json
  | .json v => some v
  | .invalid _ => none

/-- `json.dumps(value)` (line 166): always produces valid JSON text. -/
def dumps (v : Json) : S3Body := .json v

/-- One S3 object: key, body, user metadata, and the `last_modified`
timestamp S3 stamps on every upload or copy. -/
structure S3Object where
  key : String
  body : S3Body
  metadata : List (String × String)
  last_modified : Nat
deriving DecidableEq, Repr

/-- One bucket lifecycle rule, as put by `set_expiration`
(lines 195-200). -/
structure LifecycleRule where
  expirationDays : Int
  prefixFilter : String
  id : String
  status : String
deriving DecidableEq, Repr

/-- The remote bucket: its objects and its lifecycle configuration
(`none` = no configuration present). -/
structure S3Bucket where
  objects : List S3Object
  lifecycle : Option (List LifecycleRule)
deriving DecidableEq, Repr

/-- Python exceptions crossing the modelled boundaries. -/
inductive PyError where
  | clientError      -- botocore transport / NoSuchKey failures
  | jsonDecodeError  -- json.loads on non-JSON text
  | keyError         -- popitem(): dictionary is empty (line 184)
  | typeError        -- invalid maxsize / days (lines 84, 120, 202)
deriving DecidableEq, Repr

/-- `datetime.now(timezone.utc).isoformat()` (line 167), abstracted to a
rendering of the modelled clock. -/
def isoNow (now : Nat) : String := "T+" ++ toString now

namespace S3Dict

/-- The copy-onto-self at line 155: refreshes `last_modified`, keeps the
body, and re-installs the object's own metadata
(`MetadataDirective: REPLACE` with the metadata just read). -/
def touch (b : S3Bucket) (key : String) (now : Nat) : S3Bucket :=
  { b with objects := b.objects.map fun o =>
      if o.key = key then { o with last_modified := now } else o }

/-- `__getitem__` (lines 147-156): download, then the LRU touch, then
`json.loads`.  Failures are exceptions; the touch's effect on the bucket
survives a later decode failure, so the resulting bucket is returned
alongside the `Except` result.  `netOk` is the network-availability
oracle for this call. -/
def getitem (is_lru : Bool) (netOk : Bool) (now : Nat) (b : S3Bucket)
    (key : String) : Except PyError Json × S3Bucket :=
  if !netOk then (.error .clientError, b)
  else
    match b.objects.find? (fun o => o.key = key) with
    | none => (.error .clientError, b)
    | some obj =>
        let b' := if is_lru then touch b key now else b
        match loads obj.body with
        | none => (.error .jsonDecodeError, b')
        | some v => (.ok v, b')

/-- `get` (lines 158-163): `self[key]` with every exception downgraded
to the default.  `none` plays the wrapper's `sentinel`. -/
def get (is_lru : Bool) (netOk : Bool) (now : Nat) (b : S3Bucket)
    (key : String) (default : Option Json) : Option Json × S3Bucket :=
  match getitem is_lru netOk now b key with
  | (.ok v, b') => (some v, b')
  | (.error _, b') => (default, b')

/-- `__setitem__` (lines 165-167): upload `dumps(value)` under `key`
with a fresh `Created` metadata stamp; an upload to an existing key
replaces that object. -/
def setitem (b : S3Bucket) (key : String) (value : Json) (now : Nat) :
    S3Bucket :=
  { b with objects :=
      b.objects.filter (fun o => o.key ≠ key) ++
        [{ key := key, body := dumps value,
           metadata := [("Created", isoNow now)], last_modified := now }] }

/-- `__len__` (lines 169-172): count the bucket's objects. -/
def size (b : S3Bucket) : Nat := b.objects.length

/-- `clear` (lines 174-175). -/
def clear (b : S3Bucket) : S3Bucket := { b with objects := [] }

/-- One comparison step of Python `max(iterable, key=f, default=None)`:
the current best is replaced only by a strictly greater element, so the
first maximal element wins ties. -/
def pymaxStep (f : S3Object → Nat) (acc : Option S3Object)
    (o : S3Object) : Option S3Object :=
  match acc with
  | none => some o
  | some cur => if f cur < f o then some o else some cur

/-- Python `max(iterable, key=f, default=None)`. -/
def pymax (f : S3Object → Nat) (l : List S3Object) : Option S3Object :=
  l.foldl (pymaxStep f) none

/-- One comparison step of Python `min(iterable, key=f, default=None)`. -/
def pyminStep (f : S3Object → Nat) (acc : Option S3Object)
    (o : S3Object) : Option S3Object :=
  match acc with
  | none => some o
  | some cur => if f o < f cur then some o else some cur

/-- Python `min(iterable, key=f, default=None)`. -/
def pymin (f : S3Object → Nat) (l : List S3Object) : Option S3Object :=
  l.foldl (pyminStep f) none

/-- Delete one object by key (`target.delete()`, line 186). -/
def deleteKey (b : S3Bucket) (key : String) : S3Bucket :=
  { b with objects := b.objects.filter (fun o => o.key ≠ key) }

/-- `popitem`'s `target_func` (line 181): `max` when `last`, `min`
otherwise. -/
def popTarget (b : S3Bucket) (last : Bool) : Option S3Object :=
  if last then pymax (fun o => o.last_modified) b.objects
  else pymin (fun o => o.last_modified) b.objects

/-- `popitem(last)` (lines 177-187): select the object with maximal
`last_modified` when `last`, minimal otherwise; raise `KeyError` on an
empty bucket; else delete it and return its key with a `None` dummy
value. -/
def popitem (b : S3Bucket) (last : Bool) :
    Except PyError ((String × Option Json) × S3Bucket) :=
  match popTarget b last with
  | none => .error .keyError
  | some t => .ok ((t.key, none), deleteKey b t.key)

/-- The rule put at lines 196-200. -/
def expirationRule (d : Int) : LifecycleRule :=
  { expirationDays := d, prefixFilter := "",
    id := s!"Expire after {d} days", status := "Enabled" }

/-- `set_expiration(days)` (lines 190-202): `None` deletes the bucket's
lifecycle configuration; a positive int installs the single rule
`Expire after {days} days`, replacing the whole configuration; anything
else raises `TypeError`. -/
def set_expiration (b : S3Bucket) (days : Option Int) :
    Except PyError S3Bucket :=
  match days with
  | none => .ok { b with lifecycle := none }
  | some d =>
      if d > 0 then .ok { b with lifecycle := some [expirationRule d] }
      else .error .typeError

end S3Dict

/-! ## The memoizing wrapper (`_s3_cache_wrapper`, lines 94-139) -/

/-- The wrapper's per-function state: the bucket plus the nonlocal
`hits` / `misses` counters. -/
structure CacheState where
  bucket : S3Bucket
  hits : Nat
  misses : Nat
deriving DecidableEq, Repr

/-- An exception escaping one wrapped call: the user function's own, or
one from the store (only `popitem` can raise here; `get` cannot). -/
inductive WrapErr (ε : Type) where
  | user (e : ε)
  | store (e : PyError)
deriving DecidableEq, Repr

/-- One call of `wrapper` (lines 104-118).  `f` is the wrapped user
function on the call's arguments, returning a value or raising; `netOk`
and `now` model the call's environment.  The resulting state is
returned even when an exception propagates, since the counter and
bucket updates made before the raise persist. -/
def wrapper {ε : Type} (maxsize : Option Int) (typed : Bool)
    (is_lru : Bool)
    (f : List PyVal → List (String × PyVal) → Except ε Json)
    (netOk : Bool) (now : Nat) (st : CacheState)
    (args : List PyVal) (kwds : List (String × PyVal)) :
    Except (WrapErr ε) Json × CacheState :=
  let key := cacheKey args kwds typed
  match S3Dict.get is_lru netOk now st.bucket key none with
  | (some result, b') =>
      (.ok result, { st with bucket := b', hits := st.hits + 1 })
  | (none, b') =>
      let st1 : CacheState :=
        { st with bucket := b', misses := st.misses + 1 }
      match f args kwds with
      | .error e => (.error (.user e), st1)
      | .ok result =>
          match maxsize with
          | some m =>
              if m ≤ (S3Dict.size st1.bucket : Int) then
                match S3Dict.popitem st1.bucket false with
                | .error e => (.error (.store e), st1)
                | .ok (_, b2) =>
                    (.ok result,
                     { st1 with bucket := S3Dict.setitem b2 key result now })
              else
                (.ok result,
                 { st1 with bucket := S3Dict.setitem st1.bucket key result now })
          | none =>
              (.ok result,
               { st1 with bucket := S3Dict.setitem st1.bucket key result now })

/-- `cache_info()` (lines 122-124). -/
def cache_info (maxsize : Option Int) (st : CacheState) :
    Nat × Nat × Option Int × Nat :=
  (st.hits, st.misses, maxsize, S3Dict.size st.bucket)

/-- `cache_clear()` (lines 126-130). -/
def cache_clear (st : CacheState) : CacheState :=
  { bucket := S3Dict.clear st.bucket, hits := 0, misses := 0 }

/-! ## The factory (`_s3_cache`, lines 73-91) -/

/-- The first argument of `_s3_cache`: `None`, an integer, or the
directly decorated callable.  `typed` is a boolean per the interface
contract, so `isinstance(typed, bool)` at line 75 always holds. -/
inductive MaxsizeArg where
  | none
  | int (n : Int)
  | func
deriving DecidableEq, Repr

/-- What `_s3_cache` produces: a wrapper immediately (direct
decoration) or a decorating function; either closes over the effective
`maxsize`, `typed` and policy, which `cache_parameters()` reports. -/
inductive S3CacheResult where
  | direct (maxsize : Option Int) (typed : Bool) (is_lru : Bool)
  | decorator (maxsize : Option Int) (typed : Bool) (is_lru : Bool)
deriving DecidableEq, Repr

/-- `_s3_cache(maxsize, typed, bucket_name, is_lru)` (lines 73-91):
a callable `maxsize` means direct decoration with the default 128; else
`None` and positive ints are accepted and anything else raises
`TypeError`. -/
def s3_cache (maxsize : MaxsizeArg) (typed : Bool) (is_lru : Bool) :
    Except PyError S3CacheResult :=
  match maxsize with
  | .func => .ok (.direct (some 128) typed is_lru)
  | .none => .ok (.decorator Option.none typed is_lru)
  | .int n =>
      if n > 0 then .ok (.decorator (some n) typed is_lru)
      else .error .typeError

/-- `s3_fifo_cache` (lines 31-32). -/
def s3_fifo_cache (maxsize : MaxsizeArg) (typed : Bool) :
    Except PyError S3CacheResult :=
  s3_cache maxsize typed false

/-- `s3_lru_cache` (lines 34-35). -/
def s3_lru_cache (maxsize : MaxsizeArg) (typed : Bool) :
    Except PyError S3CacheResult :=
  s3_cache maxsize typed true

/-- `wrapper.cache_parameters()` (lines 79, 88). -/
def cache_parameters : S3CacheResult → Option Int × Bool
  | .direct m t _ => (m, t)
  | .decorator m t _ => (m, t)

/-! ## Helper lemmas -/

theorem pymin_go (f : S3Object → Nat) (l : List S3Object)
    (cur : S3Object) :
    ∃ t, l.foldl (S3Dict.pyminStep f) (some cur) = some t ∧
      (t = cur ∨ t ∈ l) ∧ f t ≤ f cur ∧ ∀ o ∈ l, f t ≤ f o := by
  induction l generalizing cur with
  | nil => exact ⟨cur, rfl, Or.inl rfl, le_refl _, by simp⟩
  | cons o rest ih =>
      simp only [List.foldl_cons, S3Dict.pyminStep]
      by_cases h : f o < f cur
      · rw [if_pos h]
        obtain ⟨t, heq, hmem, hle, hall⟩ := ih o
        refine ⟨t, heq, ?_, le_trans hle (le_of_lt h), ?_⟩
        · rcases hmem with rfl | hm
          · exact Or.inr (List.mem_cons_self _ _)
          · exact Or.inr (List.mem_cons_of_mem _ hm)
        · intro x hx
          rcases List.mem_cons.mp hx with rfl | hm
          · exact hle
          · exact hall x hm
      · rw [if_neg h]
        obtain ⟨t, heq, hmem, hle, hall⟩ := ih cur
        refine ⟨t, heq, ?_, hle, ?_⟩
        · rcases hmem with rfl | hm
          · exact Or.inl rfl
          · exact Or.inr (List.mem_cons_of_mem _ hm)
        · intro x hx
          rcases List.mem_cons.mp hx with rfl | hm
          · exact le_trans hle (le_of_not_lt h)
          · exact hall x hm

theorem pymax_go (f : S3Object → Nat) (l : List S3Object)
    (cur : S3Object) :
    ∃ t, l.foldl (S3Dict.pymaxStep f) (some cur) = some t ∧
      (t = cur ∨ t ∈ l) ∧ f cur ≤ f t ∧ ∀ o ∈ l, f o ≤ f t := by
  induction l generalizing cur with
  | nil => exact ⟨cur, rfl, Or.inl rfl, le_refl _, by simp⟩
  | cons o rest ih =>
      simp only [List.foldl_cons, S3Dict.pymaxStep]
      by_cases h : f cur < f o
      · rw [if_pos h]
        obtain ⟨t, heq, hmem, hle, hall⟩ := ih o
        refine ⟨t, heq, ?_, le_trans (le_of_lt h) hle, ?_⟩
        · rcases hmem with rfl | hm
          · exact Or.inr (List.mem_cons_self _ _)
          · exact Or.inr (List.mem_cons_of_mem _ hm)
        · intro x hx
          rcases List.mem_cons.mp hx with rfl | hm
          · exact hle
          · exact hall x hm
      · rw [if_neg h]
        obtain ⟨t, heq, hmem, hle, hall⟩ := ih cur
        refine ⟨t, heq, ?_, hle, ?_⟩
        · rcases hmem with rfl | hm
          · exact Or.inl rfl
          · exact Or.inr (List.mem_cons_of_mem _ hm)
        · intro x hx
          rcases List.mem_cons.mp hx with rfl | hm
          · exact le_trans (le_of_not_lt h) hle
          · exact hall x hm

theorem pymin_spec (f : S3Object → Nat) (l : List S3Object)
    (h : l ≠ []) :
    ∃ t, S3Dict.pymin f l = some t ∧ t ∈ l ∧
      ∀ o ∈ l, f t ≤ f o := by
  match l, h with
  | o :: rest, _ =>
      obtain ⟨t, heq, hmem, hle, hall⟩ := pymin_go f rest o
      refine ⟨t, ?_, ?_, ?_⟩
      · simpa [S3Dict.pymin, S3Dict.pyminStep] using heq
      · rcases hmem with rfl | hm
        · exact List.mem_cons_self _ _
        · exact List.mem_cons_of_mem _ hm
      · intro x hx
        rcases List.mem_cons.mp hx with rfl | hm
        · exact hle
        · exact hall x hm

theorem pymax_spec (f : S3Object → Nat) (l : List S3Object)
    (h : l ≠ []) :
    ∃ t, S3Dict.pymax f l = some t ∧ t ∈ l ∧
      ∀ o ∈ l, f o ≤ f t := by
  match l, h with
  | o :: rest, _ =>
      obtain ⟨t, heq, hmem, hle, hall⟩ := pymax_go f rest o
      refine ⟨t, ?_, ?_, ?_⟩
      · simpa [S3Dict.pymax, S3Dict.pymaxStep] using heq
      · rcases hmem with rfl | hm
        · exact List.mem_cons_self _ _
        · exact List.mem_cons_of_mem _ hm
      · intro x hx
        rcases List.mem_cons.mp hx with rfl | hm
        · exact hle
        · exact hall x hm

theorem find?_filter_ne (l : List S3Object) (key : String) :
    (l.filter (fun o => o.key ≠ key)).find? (fun o => o.key = key) =
      none := by
  apply List.find?_eq_none.mpr
  intro x hx
  have := List.of_mem_filter hx
  simpa using this

theorem setitem_find (b : S3Bucket) (key : String) (v : Json)
    (now : Nat) :
    (S3Dict.setitem b key v now).objects.find?
        (fun o => o.key = key) =
      some { key := key, body := dumps v,
             metadata := [("Created", isoNow now)],
             last_modified := now } := by
  simp [S3Dict.setitem, List.find?_append, find?_filter_ne,
    List.find?_cons]

theorem get_absent (is_lru netOk : Bool) (now : Nat) (b : S3Bucket)
    (key : String) (h : ∀ o ∈ b.objects, o.key ≠ key) :
    S3Dict.get is_lru netOk now b key none = (none, b) := by
  have hf : b.objects.find? (fun o => o.key = key) = none :=
    List.find?_eq_none.mpr (by intro x hx; simpa using h x hx)
  cases netOk
  · simp [S3Dict.get, S3Dict.getitem]
  · simp [S3Dict.get, S3Dict.getitem, hf]

theorem get_present (is_lru : Bool) (now : Nat) (b : S3Bucket)
    (key : String) (obj : S3Object) (v : Json)
    (hfind : b.objects.find? (fun o => o.key = key) = some obj)
    (hbody : loads obj.body = some v) :
    S3Dict.get is_lru true now b key none =
      (some v, if is_lru then S3Dict.touch b key now else b) := by
  simp [S3Dict.get, S3Dict.getitem, hfind, hbody]

theorem popitem_min (b : S3Bucket) (h : b.objects ≠ []) :
    ∃ t, t ∈ b.objects ∧
      (∀ o ∈ b.objects, t.last_modified ≤ o.last_modified) ∧
      S3Dict.popitem b false =
        .ok ((t.key, none), S3Dict.deleteKey b t.key) := by
  obtain ⟨t, heq, hmem, hall⟩ := pymin_spec (fun o => o.last_modified) _ h
  exact ⟨t, hmem, hall,
    by simp [S3Dict.popitem, S3Dict.popTarget, heq]⟩

theorem wrapper_miss {ε : Type} (maxsize : Option Int)
    (typed is_lru : Bool)
    (f : List PyVal → List (String × PyVal) → Except ε Json)
    (now : Nat) (st : CacheState) (args : List PyVal)
    (kwds : List (String × PyVal)) (v : Json)
    (hmax : maxsize = none ∨ ∃ m, maxsize = some m ∧ 0 < m)
    (habs : ∀ o ∈ st.bucket.objects, o.key ≠ cacheKey args kwds typed)
    (hf : f args kwds = .ok v) :
    ∃ b', wrapper maxsize typed is_lru f true now st args kwds =
      (.ok v,
       { bucket := S3Dict.setitem b' (cacheKey args kwds typed) v now,
         hits := st.hits, misses := st.misses + 1 }) := by
  have hget := get_absent is_lru true now st.bucket
    (cacheKey args kwds typed) habs
  rcases hmax with rfl | ⟨m, rfl, hm⟩
  · exact ⟨st.bucket, by simp [wrapper, hget, hf]⟩
  · by_cases hfull : m ≤ (S3Dict.size st.bucket : Int)
    · have hne : st.bucket.objects ≠ [] := by
        intro hnil
        rw [S3Dict.size, hnil] at hfull
        simp at hfull
        omega
      obtain ⟨t, _, _, hpop⟩ := popitem_min st.bucket hne
      exact ⟨S3Dict.deleteKey st.bucket t.key,
        by simp [wrapper, hget, hf, hfull, hpop]⟩
    · exact ⟨st.bucket, by simp [wrapper, hget, hf, hfull]⟩

theorem filter_ne_length (l : List S3Object) (t : S3Object)
    (hmem : t ∈ l)
    (hnd : l.Pairwise (fun o₁ o₂ => o₁.key ≠ o₂.key)) :
    (l.filter (fun o => o.key ≠ t.key)).length + 1 = l.length := by
  induction l with
  | nil => cases hmem
  | cons o rest ih =>
      have hpair := List.pairwise_cons.mp hnd
      rcases List.mem_cons.mp hmem with rfl | hm
      · have hkeep : rest.filter (fun x => decide (x.key ≠ t.key)) =
            rest := by
          apply List.filter_eq_self.mpr
          intro x hx
          simp only [decide_eq_true_eq, ne_eq]
          exact fun he => hpair.1 x hx he.symm
        rw [List.filter_cons, if_neg (by simp), hkeep, List.length_cons]
      · have hok : (decide (o.key ≠ t.key)) = true := by
          simpa using hpair.1 t hm
        have hrec := ih hm hpair.2
        simp only [List.filter_cons, hok, if_true, List.length_cons]
        omega

/-! ## Claims -/

/-- C4: for every key, any failure during the store's `get` — network
error, object not found, or JSON deserialization error — is caught at
the store boundary (`_S3Dict.get`, lines 158-163) and yields the
default ("absent") value: whenever `__getitem__` raises, `get` returns
the default instead of propagating the exception, and each of the three
failure modes indeed surfaces from `__getitem__` as an exception. -/
theorem c4_get_never_raises (is_lru netOk : Bool) (now : Nat)
    (b : S3Bucket) (key : String) (default : Option Json) :
    (∀ e b', S3Dict.getitem is_lru netOk now b key = (.error e, b') →
      S3Dict.get is_lru netOk now b key default = (default, b')) ∧
    (netOk = false →
      S3Dict.getitem is_lru netOk now b key =
        (.error .clientError, b)) ∧
    ((∀ o ∈ b.objects, o.key ≠ key) → netOk = true →
      S3Dict.getitem is_lru netOk now b key =
        (.error .clientError, b)) ∧
    (∀ obj, b.objects.find? (fun o => o.key = key) = some obj →
      loads obj.body = none → netOk = true →
      ∃ b', S3Dict.getitem is_lru netOk now b key =
          (.error .jsonDecodeError, b') ∧
        S3Dict.get is_lru netOk now b key default = (default, b')) := by
  refine ⟨?_, ?_, ?_, ?_⟩
  · intro e b' h
    simp [S3Dict.get, h]
  · intro h
    subst h
    simp [S3Dict.getitem]
  · intro h hnet
    subst hnet
    have hf : b.objects.find? (fun o => o.key = key) = none :=
      List.find?_eq_none.mpr (by intro x hx; simpa using h x hx)
    simp [S3Dict.getitem, hf]
  · intro obj hfind hbody hnet
    subst hnet
    refine ⟨if is_lru then S3Dict.touch b key now else b, ?_, ?_⟩
    · simp [S3Dict.getitem, hfind, hbody]
    · simp [S3Dict.get, S3Dict.getitem, hfind, hbody]

/-- C4 witness: a network failure on a concrete store yields the
default and no exception. -/
theorem c4_witness :
    S3Dict.get false false 0 ⟨[], none⟩ "k" none = (none, ⟨[], none⟩) := by
  have h := c4_get_never_raises false false 0 ⟨[], none⟩ "k" none
  exact h.1 .clientError _ (h.2.1 rfl)

/-- C6: `popitem` on a store with zero objects raises `KeyError`
(lines 183-184), never swallowed; on a non-empty store it deletes
exactly one object — the one with the maximal `last_modified` when
`last = true` (the spec's `oldest = false`), the minimal one when
`last = false` (`oldest = true`). -/
theorem c6_popitem_spec (b : S3Bucket) (last : Bool) :
    (b.objects = [] → S3Dict.popitem b last = .error .keyError) ∧
    (b.objects ≠ [] →
      ∃ t, t ∈ b.objects ∧
        S3Dict.popitem b last =
          .ok ((t.key, none), S3Dict.deleteKey b t.key) ∧
        (last = true →
          ∀ o ∈ b.objects, o.last_modified ≤ t.last_modified) ∧
        (last = false →
          ∀ o ∈ b.objects, t.last_modified ≤ o.last_modified) ∧
        (b.objects.Pairwise (fun o₁ o₂ => o₁.key ≠ o₂.key) →
          (S3Dict.deleteKey b t.key).objects.length + 1 =
            b.objects.length)) := by
  constructor
  · intro h
    cases last <;>
      simp [S3Dict.popitem, S3Dict.popTarget, S3Dict.pymin,
        S3Dict.pymax, h]
  · intro h
    cases last
    · obtain ⟨t, heq, hmem, hall⟩ :=
        pymin_spec (fun o => o.last_modified) _ h
      refine ⟨t, hmem, ?_, by simp, fun _ => hall, ?_⟩
      · simp [S3Dict.popitem, S3Dict.popTarget, heq]
      · intro hnd
        exact filter_ne_length b.objects t hmem hnd
    · obtain ⟨t, heq, hmem, hall⟩ :=
        pymax_spec (fun o => o.last_modified) _ h
      refine ⟨t, hmem, ?_, fun _ => hall, by simp, ?_⟩
      · simp [S3Dict.popitem, S3Dict.popTarget, heq]
      · intro hnd
        exact filter_ne_length b.objects t hmem hnd

/-- C6 witness: on a concrete two-object store, `popitem last := true`
deletes the newer object and `popitem` on the empty store raises. -/
theorem c6_witness :
    S3Dict.popitem ⟨[], none⟩ true = .error .keyError ∧
    ∃ t, t ∈ ([⟨"a", .json (.num 1), [], 1⟩,
               ⟨"b", .json (.num 2), [], 2⟩] : List S3Object) ∧
      S3Dict.popitem
          ⟨[⟨"a", .json (.num 1), [], 1⟩,
            ⟨"b", .json (.num 2), [], 2⟩], none⟩ true =
        .ok ((t.key, none),
          S3Dict.deleteKey
            ⟨[⟨"a", .json (.num 1), [], 1⟩,
              ⟨"b", .json (.num 2), [], 2⟩], none⟩ t.key) := by
  constructor
  · exact (c6_popitem_spec ⟨[], none⟩ true).1 rfl
  · obtain ⟨t, hmem, heq, -⟩ :=
      (c6_popitem_spec
        ⟨[⟨"a", .json (.num 1), [], 1⟩,
          ⟨"b", .json (.num 2), [], 2⟩], none⟩ true).2 (by decide)
    exact ⟨t, hmem, heq⟩

/-- C7: `_s3_cache` (lines 73-91) raises `TypeError` exactly when
`maxsize` is neither `None`, a callable, nor a positive integer (so
`maxsize = 0` and negatives are rejected); a callable `maxsize` (direct
decoration) gets the default `maxsize = 128`, and with the default
`typed = false` the direct invocation `s3_fifo_cache(f)` produces a
wrapper whose `cache_parameters()` reports `(128, false)`. -/
theorem c7_factory_validation :
    (∀ ms t lru, (∃ e, s3_cache ms t lru = .error e) ↔
      ∃ n, ms = .int n ∧ n ≤ 0) ∧
    (∀ ms t lru e, s3_cache ms t lru = .error e → e = .typeError) ∧
    (∀ t lru, s3_cache .func t lru = .ok (.direct (some 128) t lru)) ∧
    (s3_fifo_cache .func false = .ok (.direct (some 128) false false)) ∧
    (∀ r, s3_fifo_cache .func false = .ok r →
      cache_parameters r = (some 128, false)) := by
  refine ⟨?_, ?_, fun t lru => rfl, rfl, ?_⟩
  · intro ms t lru
    constructor
    · rintro ⟨e, he⟩
      cases ms with
      | none => simp [s3_cache] at he
      | func => simp [s3_cache] at he
      | int n =>
          by_cases h : n > 0
          · simp [s3_cache, h] at he
          · exact ⟨n, rfl, by omega⟩
    · rintro ⟨n, rfl, hn⟩
      have h : ¬n > 0 := by omega
      exact ⟨.typeError, by simp [s3_cache, h]⟩
  · intro ms t lru e he
    cases ms with
    | none => simp [s3_cache] at he
    | func => simp [s3_cache] at he
    | int n =>
        by_cases h : n > 0
        · simp [s3_cache, h] at he
        · simpa [s3_cache, h] using he.symm
  · intro r hr
    cases hr
    rfl

/-- C7 witness: `maxsize = 0` is rejected; direct decoration applies
the defaults. -/
theorem c7_witness :
    s3_cache (.int 0) false false = .error .typeError ∧
    cache_parameters (.direct (some 128) false false) =
      (some 128, false) := by
  constructor
  · obtain ⟨e, he⟩ := (c7_factory_validation.1 (.int 0) false false).mpr
      ⟨0, rfl, by decide⟩
    have := c7_factory_validation.2.1 (.int 0) false false e he
    rwa [this] at he
  · exact c7_factory_validation.2.2.2.2 _ rfl

/-- C8: `set_expiration(None)` (lines 191-192) removes any previously
configured expiration rule; for a positive `d` it installs the single
rule identified by `Expire after {d} days`, replacing the whole prior
configuration; any other integer (e.g. 0 or -1) raises `TypeError`
(lines 201-202). -/
theorem c8_set_expiration_spec :
    (∀ b, S3Dict.set_expiration b none =
      .ok { b with lifecycle := none }) ∧
    (∀ b (d : Int), 0 < d →
      S3Dict.set_expiration b (some d) =
        .ok { b with lifecycle := some [S3Dict.expirationRule d] }) ∧
    (∀ d : Int, (S3Dict.expirationRule d).id =
      "Expire after " ++ toString d ++ " days") ∧
    (∀ b (d : Int), d ≤ 0 →
      S3Dict.set_expiration b (some d) = .error .typeError) := by
  refine ⟨fun b => rfl, ?_, fun d => rfl, ?_⟩
  · intro b d hd
    simp [S3Dict.set_expiration, hd]
  · intro b d hd
    have h : ¬d > 0 := by omega
    simp [S3Dict.set_expiration, h]

/-- C8 witness: on a bucket with a prior rule, `set_expiration 30`
replaces it with the `Expire after 30 days` rule, `set_expiration None`
removes it, and 0 and -1 are rejected. -/
theorem c8_witness :
    S3Dict.set_expiration ⟨[], some [S3Dict.expirationRule 7]⟩
        (some 30) =
      .ok ⟨[], some [S3Dict.expirationRule 30]⟩ ∧
    (S3Dict.expirationRule 30).id = "Expire after 30 days" ∧
    S3Dict.set_expiration ⟨[], some [S3Dict.expirationRule 30]⟩
        none =
      .ok ⟨[], none⟩ ∧
    S3Dict.set_expiration ⟨[], none⟩ (some 0) = .error .typeError ∧
    S3Dict.set_expiration ⟨[], none⟩ (some (-1)) =
      .error .typeError := by
  refine ⟨?_, ?_, ?_, ?_, ?_⟩
  · exact c8_set_expiration_spec.2.1 _ 30 (by decide)
  · exact c8_set_expiration_spec.2.2.1 30
  · exact c8_set_expiration_spec.1 _
  · exact c8_set_expiration_spec.2.2.2 _ 0 (by decide)
  · exact c8_set_expiration_spec.2.2.2 _ (-1) (by decide)

/-- C10: the keyword sentinel bound at line 107 is the ordinary string
'kwd_mark', so the two distinct calls `f(a=1)` and
`f('kwd_mark', 'a', 1)` derive the same cache key and share one cache
entry. -/
theorem c10_kwd_mark_collision :
    (([] : List PyVal), [("a", PyVal.int 1)]) ≠
      (([PyVal.str "kwd_mark", PyVal.str "a", PyVal.int 1] :
          List PyVal),
       ([] : List (String × PyVal))) ∧
    cacheKey [] [("a", .int 1)] false =
      cacheKey [.str "kwd_mark", .str "a", .int 1] [] false := by
  exact ⟨by decide, by decide⟩

/-- C3: with `typed = true` the calls `f(1)` and `f(1.0)` derive
different cache keys and so occupy distinct entries; with
`typed = false` and exactly one positional argument whose type is int
or str, `_make_key` returns the bare argument (lines 68-69) — the bare
value, not a composite tuple, is what gets digested — so the type
distinction collapses: e.g. `f(1)` and `f('1')` share a cache key. -/
theorem c3_typed_distinction :
    cacheKey [.int 1] [] true ≠ cacheKey [.float "1.0"] [] true ∧
    (∀ v : PyVal, pytype v ∈ fasttypes →
      make_key [v] [] false (.str "kwd_mark") = .bare v) ∧
    cacheKey [.int 1] [] false = cacheKey [.str "1"] [] false := by
  refine ⟨by decide, ?_, by decide⟩
  intro v hv
  simp [make_key, hv]

/-- C3 witness: the fast path at a concrete int argument. -/
theorem c3_witness :
    make_key [.int 5] [] false (.str "kwd_mark") = .bare (.int 5) :=
  c3_typed_distinction.2.1 (.int 5) (by decide)

/-- C5: if the wrapped function raises on a cache miss (here: a miss on
an absent key), the exception propagates unmodified to the caller, no
entry is written to the store for that key (the bucket is exactly as
before), `misses` has already been incremented by 1, and `hits` is
unchanged.  Holds for any policy, any maxsize and any network state. -/
theorem c5_user_error_propagates {ε : Type} (maxsize : Option Int)
    (typed is_lru netOk : Bool)
    (f : List PyVal → List (String × PyVal) → Except ε Json)
    (now : Nat) (st : CacheState) (args : List PyVal)
    (kwds : List (String × PyVal)) (e : ε)
    (habs : ∀ o ∈ st.bucket.objects, o.key ≠ cacheKey args kwds typed)
    (herr : f args kwds = .error e) :
    wrapper maxsize typed is_lru f netOk now st args kwds =
      (.error (.user e),
       { bucket := st.bucket, hits := st.hits,
         misses := st.misses + 1 }) := by
  have hget := get_absent is_lru netOk now st.bucket
    (cacheKey args kwds typed) habs
  simp [wrapper, hget, herr]

/-- C5 witness: a concrete failing call on an empty cache. -/
theorem c5_witness :
    wrapper (ε := Unit) (some 128) false false
        (fun _ _ => .error ()) true 0 ⟨⟨[], none⟩, 0, 0⟩
        [.int 1] [] =
      (.error (.user ()), ⟨⟨[], none⟩, 0, 1⟩) :=
  c5_user_error_propagates (some 128) false false true
    (fun _ _ => .error ()) 0 ⟨⟨[], none⟩, 0, 0⟩ [.int 1] [] ()
    (by decide) rfl

/-- C2: for every argument tuple, calling the wrapped function twice
with identical arguments (same positional and keyword order), starting
from a state where the key is absent, yields: the first call invokes
the function and stores its result (misses + 1), and the second call
returns the stored result with hits + 1 — and does so for ANY function
`g` in place of the wrapped one, i.e. without re-invoking it.  Across
the two calls, misses increases by exactly 1 and hits by exactly 1. -/
theorem c2_second_call_hits {ε : Type} (maxsize : Option Int)
    (typed is_lru : Bool)
    (f g : List PyVal → List (String × PyVal) → Except ε Json)
    (now₁ now₂ : Nat) (st : CacheState) (args : List PyVal)
    (kwds : List (String × PyVal)) (v : Json)
    (hmax : maxsize = none ∨ ∃ m, maxsize = some m ∧ 0 < m)
    (habs : ∀ o ∈ st.bucket.objects, o.key ≠ cacheKey args kwds typed)
    (hf : f args kwds = .ok v) :
    ∃ st₁ st₂,
      wrapper maxsize typed is_lru f true now₁ st args kwds =
        (.ok v, st₁) ∧
      st₁.hits = st.hits ∧ st₁.misses = st.misses + 1 ∧
      wrapper maxsize typed is_lru g true now₂ st₁ args kwds =
        (.ok v, st₂) ∧
      st₂.hits = st.hits + 1 ∧ st₂.misses = st.misses + 1 := by
  obtain ⟨b', h1⟩ := wrapper_miss maxsize typed is_lru f now₁ st args
    kwds v hmax habs hf
  have hfind := setitem_find b' (cacheKey args kwds typed) v now₁
  have hget := get_present is_lru now₂
    (S3Dict.setitem b' (cacheKey args kwds typed) v now₁)
    (cacheKey args kwds typed)
    ⟨cacheKey args kwds typed, dumps v, [("Created", isoNow now₁)],
      now₁⟩ v hfind rfl
  have h2 : wrapper maxsize typed is_lru g true now₂
      ⟨S3Dict.setitem b' (cacheKey args kwds typed) v now₁, st.hits,
        st.misses + 1⟩ args kwds =
      (.ok v,
       ⟨(if is_lru then
           S3Dict.touch
             (S3Dict.setitem b' (cacheKey args kwds typed) v now₁)
             (cacheKey args kwds typed) now₂
         else S3Dict.setitem b' (cacheKey args kwds typed) v now₁),
        st.hits + 1, st.misses + 1⟩) := by
    simp [wrapper, hget]
  exact ⟨_, _, h1, rfl, rfl, h2, rfl, rfl⟩

/-- C2 witness: two concrete calls on an initially empty cache. -/
theorem c2_witness :
    ∃ st₁ st₂,
      wrapper (ε := Unit) (some 128) false false
          (fun _ _ => .ok (.num 3)) true 0 ⟨⟨[], none⟩, 0, 0⟩
          [.int 1] [] =
        (.ok (.num 3), st₁) ∧
      st₁.hits = 0 ∧ st₁.misses = 0 + 1 ∧
      wrapper (ε := Unit) (some 128) false false
          (fun _ _ => .error ()) true 1 st₁ [.int 1] [] =
        (.ok (.num 3), st₂) ∧
      st₂.hits = 0 + 1 ∧ st₂.misses = 0 + 1 :=
  c2_second_call_hits (some 128) false false
    (fun _ _ => .ok (.num 3)) (fun _ _ => .error ()) 0 1
    ⟨⟨[], none⟩, 0, 0⟩ [.int 1] [] (.num 3)
    (Or.inr ⟨128, rfl, by decide⟩) (by decide) rfl

/-- C9: for every present key, a `get` under the LRU policy performs a
touch: the value returned equals the stored (decoded) value, the
resulting bucket is the copy-onto-self `touch`, entries with other keys
are untouched, every surviving object keeps its body and metadata (the
touched one only has `last_modified` refreshed to `now`), and no object
is added or removed. -/
theorem c9_lru_get_touches (now : Nat) (b : S3Bucket) (key : String)
    (obj : S3Object) (v : Json)
    (hfind : b.objects.find? (fun o => o.key = key) = some obj)
    (hbody : loads obj.body = some v) :
    S3Dict.get true true now b key none =
      (some v, S3Dict.touch b key now) ∧
    (∀ o ∈ b.objects, o.key ≠ key →
      o ∈ (S3Dict.touch b key now).objects) ∧
    (∀ o' ∈ (S3Dict.touch b key now).objects, ∃ o ∈ b.objects,
      o'.key = o.key ∧ o'.body = o.body ∧ o'.metadata = o.metadata ∧
      (o.key ≠ key → o' = o) ∧
      (o.key = key → o'.last_modified = now)) ∧
    (S3Dict.touch b key now).objects.length = b.objects.length := by
  refine ⟨?_, ?_, ?_, ?_⟩
  · simpa using get_present true now b key obj v hfind hbody
  · intro o ho hne
    simp only [S3Dict.touch]
    have hmm := List.mem_map_of_mem
      (fun o => if o.key = key then { o with last_modified := now }
                else o) ho
    simpa [hne] using hmm
  · intro o' ho'
    simp only [S3Dict.touch] at ho'
    obtain ⟨o, ho, heq⟩ := List.mem_map.mp ho'
    by_cases hk : o.key = key
    · rw [if_pos hk] at heq
      subst heq
      exact ⟨o, ho, rfl, rfl, rfl, fun h => absurd hk h, fun _ => rfl⟩
    · rw [if_neg hk] at heq
      subst heq
      exact ⟨o, ho, rfl, rfl, rfl, fun _ => rfl,
        fun h => absurd h hk⟩
  · simp [S3Dict.touch]

/-- C9 witness: an LRU `get` on a concrete one-object store returns the
stored value and only refreshes the timestamp. -/
theorem c9_witness :
    S3Dict.get true true 5
        ⟨[⟨"k", .json (.num 1), [("Created", "T+0")], 0⟩], none⟩ "k"
        none =
      (some (.num 1),
       S3Dict.touch
         ⟨[⟨"k", .json (.num 1), [("Created", "T+0")], 0⟩], none⟩ "k"
         5) :=
  (c9_lru_get_touches 5
    ⟨[⟨"k", .json (.num 1), [("Created", "T+0")], 0⟩], none⟩ "k"
    ⟨"k", .json (.num 1), [("Created", "T+0")], 0⟩ (.num 1) rfl
    rfl).1

/-- C1 (amended): on a cache miss with an integer `maxsize = m`
configured and `count() >= m`, the wrapper evicts exactly one entry
before inserting — but the eviction call at line 116 is
`popitem(last=False)` unconditionally, so under BOTH policies, FIFO and
LRU alike, the victim is the object with the MINIMUM modification
timestamp (`oldest = true`); under LRU the touch-on-read makes that
victim the least recently touched object. -/
theorem c1_eviction_min_timestamp {ε : Type} (m : Int)
    (typed is_lru : Bool)
    (f : List PyVal → List (String × PyVal) → Except ε Json)
    (now : Nat) (st : CacheState) (args : List PyVal)
    (kwds : List (String × PyVal)) (v : Json)
    (hm : 0 < m)
    (habs : ∀ o ∈ st.bucket.objects, o.key ≠ cacheKey args kwds typed)
    (hf : f args kwds = .ok v)
    (hfull : m ≤ (S3Dict.size st.bucket : Int)) :
    ∃ victim, victim ∈ st.bucket.objects ∧
      (∀ o ∈ st.bucket.objects,
        victim.last_modified ≤ o.last_modified) ∧
      wrapper (some m) typed is_lru f true now st args kwds =
        (.ok v,
         { bucket := S3Dict.setitem
             (S3Dict.deleteKey st.bucket victim.key)
             (cacheKey args kwds typed) v now,
           hits := st.hits, misses := st.misses + 1 }) ∧
      (st.bucket.objects.Pairwise (fun o₁ o₂ => o₁.key ≠ o₂.key) →
        (S3Dict.deleteKey st.bucket victim.key).objects.length + 1 =
          st.bucket.objects.length) := by
  have hget := get_absent is_lru true now st.bucket
    (cacheKey args kwds typed) habs
  have hne : st.bucket.objects ≠ [] := by
    intro hnil
    simp [S3Dict.size, hnil] at hfull
    omega
  obtain ⟨t, hmem, hall, hpop⟩ := popitem_min st.bucket hne
  refine ⟨t, hmem, hall, ?_, ?_⟩
  · simp [wrapper, hget, hf, hfull, hpop]
  · intro hnd
    simpa [S3Dict.deleteKey] using
      filter_ne_length st.bucket.objects t hmem hnd

/-- C1 witness: a concrete FIFO-mode miss on a full two-object store
evicts the timestamp-1 object. -/
theorem c1_witness :
    ∃ victim,
      victim ∈
        ([⟨"a", .json (.num 1), [], 1⟩,
          ⟨"b", .json (.num 2), [], 2⟩] : List S3Object) ∧
      (∀ o ∈ ([⟨"a", .json (.num 1), [], 1⟩,
               ⟨"b", .json (.num 2), [], 2⟩] : List S3Object),
        victim.last_modified ≤ o.last_modified) ∧
      wrapper (ε := Unit) (some 2) false false
          (fun _ _ => .ok (.num 7)) true 10
          ⟨⟨[⟨"a", .json (.num 1), [], 1⟩,
             ⟨"b", .json (.num 2), [], 2⟩], none⟩, 0, 0⟩
          [.int 0] [] =
        (.ok (.num 7),
         { bucket := S3Dict.setitem
             (S3Dict.deleteKey
               ⟨[⟨"a", .json (.num 1), [], 1⟩,
                 ⟨"b", .json (.num 2), [], 2⟩], none⟩ victim.key)
             (cacheKey [.int 0] [] false) (.num 7) 10,
           hits := 0, misses := 0 + 1 }) ∧
      (([⟨"a", .json (.num 1), [], 1⟩,
         ⟨"b", .json (.num 2), [], 2⟩] : List S3Object).Pairwise
          (fun o₁ o₂ => o₁.key ≠ o₂.key) →
        (S3Dict.deleteKey
            ⟨[⟨"a", .json (.num 1), [], 1⟩,
              ⟨"b", .json (.num 2), [], 2⟩], none⟩
            victim.key).objects.length + 1 = 2) :=
  c1_eviction_min_timestamp 2 false false (fun _ _ => .ok (.num 7))
    10 ⟨⟨[⟨"a", .json (.num 1), [], 1⟩,
          ⟨"b", .json (.num 2), [], 2⟩], none⟩, 0, 0⟩
    [.int 0] [] (.num 7) (by decide) (by decide) rfl (by decide)

/-- C1 counterexample: the claim's LRU direction is false.  In LRU mode
(`is_lru = true`) with `maxsize = 2` and a full store holding "a"
(timestamp 1) and "b" (timestamp 2), a miss evicts "a" — the MINIMUM
timestamp — and the maximum-timestamp object "b" survives, contradicting
"under LRU it evicts with oldest=false (deleting the object with the
maximum modification timestamp)". -/
theorem c1_lru_direction_counterexample :
    ((wrapper (ε := Unit) (some 2) false true
        (fun _ _ => .ok (.num 7)) true 10
        ⟨⟨[⟨"a", .json (.num 1), [], 1⟩,
           ⟨"b", .json (.num 2), [], 2⟩], none⟩, 0, 0⟩
        [.int 0] []).2).bucket.objects.map (fun o => o.key) =
      ["b", "cfcd208495d565ef66e7dff9f98764da"] := by
  decide
